import Mathlib

/-!
Verification development for the weather-air-quality repository.

The repository has two Python programs:
* `air_quality.py` — the collector: fetches weather and air-quality data per
  city from an HTTP API and rewrites a CSV snapshot file.
* `supabase_descriptive_stats.py` — the reporter: reads two hourly series from
  a database, outer-joins them on (city_id, timestamp), computes per-city
  descriptive statistics, and renders charts.

The shallow embedding below translates the data manipulation of both programs
into Lean. Representation choices:
* Numeric dataframe cells are rationals (`ℚ`); a pandas `NaN` / SQL `NULL` /
  non-numeric entry (which `pd.to_numeric(errors="coerce")` turns into `NaN`)
  is `Cell.na`. Floating point is modelled exactly by `ℚ`; the sample standard
  deviation, whose value is a square root, is carried as its square `stdSq`
  (`none` encodes pandas returning `NaN` from `std(ddof=1)` on < 2 values).
* Timestamps are already hour-truncated by the SQL (`date_trunc('hour', ts)`),
  so an hour is just an integer.
* Python strings handled character-by-character (the `--cities` argument) are
  `List Char`; fixed labels (column names, city names, "N/A") are `String`.
-/

/-- A cell of a dataframe column: either a rational number or missing
(`NaN`/`NULL`/unparseable, the result of coercion failure). -/
inductive Cell where
  | num : ℚ → Cell
  | na : Cell
deriving DecidableEq

/-- Embeds `pd.to_numeric(·, errors="coerce")` followed by `notna` selection:
a numeric cell coerces to its value, anything else becomes missing. -/
def toNumeric : Cell → Option ℚ
  | Cell.num q => some q
  | Cell.na => none

/-- `CITY_MAP = {1: "Hanoi", 2: "Danang"}` from `supabase_descriptive_stats.py`. -/
def CITY_MAP : List (Int × String) := [(1, "Hanoi"), (2, "Danang")]

/-- Ascending sort of a rational list (pandas sorts values ascending before
taking order statistics). -/
def sortQ (x : List ℚ) : List ℚ := x.insertionSort (· ≤ ·)

/-- Minimum of a list, `float(x.min())` in `compute_stats` (callers guarantee
nonemptiness; the `[]` case is unreachable there). -/
def listMin : List ℚ → ℚ
  | [] => 0
  | [a] => a
  | a :: b :: t => min a (listMin (b :: t))

/-- Maximum of a list, `float(x.max())` in `compute_stats`. -/
def listMax : List ℚ → ℚ
  | [] => 0
  | [a] => a
  | a :: b :: t => max a (listMax (b :: t))

/-- Arithmetic mean, `float(x.mean())` in `compute_stats`. -/
def listMean (x : List ℚ) : ℚ := x.sum / (x.length : ℚ)

/-- Median as pandas computes it, `float(x.median())`: middle element of the
ascending sort for odd length, average of the two middle elements for even
length. -/
def pdMedian (x : List ℚ) : ℚ :=
  if (sortQ x).length % 2 = 1 then (sortQ x).getD ((sortQ x).length / 2) 0
  else ((sortQ x).getD ((sortQ x).length / 2 - 1) 0 + (sortQ x).getD ((sortQ x).length / 2) 0) / 2

/-- Highest multiplicity of any value in the list. -/
def maxCount (x : List ℚ) : Nat := (x.map (fun v => x.count v)).foldr max 0

/-- `Series.mode(dropna=True)` from pandas: the distinct values of maximal
multiplicity, in ascending order. -/
def pdMode (x : List ℚ) : List ℚ :=
  (sortQ x).dedup.filter (fun v => x.count v == maxCount x)

/-- `safe_mode` from `supabase_descriptive_stats.py`: the first entry of the
mode series (pandas returns the modes sorted ascending), `NaN` if empty. -/
def safe_mode (x : List ℚ) : Option ℚ := (pdMode x).head?

/-- Square of `x.std(ddof=1)` from `compute_stats`: the sample variance with
denominator `n - 1`; `none` models the `NaN` pandas produces on fewer than
two observations. -/
def sampleVarQ (x : List ℚ) : Option ℚ :=
  if x.length < 2 then none
  else some ((x.map (fun v => (v - listMean x) ^ 2)).sum / ((x.length : ℚ) - 1))

/-- A row of the weather series as selected by `read_weather`:
`city_id, date_trunc('hour', ts) as timestamp, temp as temperature, humidity,
wind_speed`. -/
structure WRow where
  city_id : Int
  timestamp : Int
  temperature : Cell
  humidity : Cell
  wind_speed : Cell
deriving DecidableEq

/-- A row of the air-quality series as selected by `read_air`:
`city_id, date_trunc('hour', ts) as timestamp, aqi, pm2_5, pm10, co, no, no2,
o3, so2`. -/
structure ARow where
  city_id : Int
  timestamp : Int
  aqi : Cell
  pm2_5 : Cell
  pm10 : Cell
  co : Cell
  no : Cell
  no2 : Cell
  o3 : Cell
  so2 : Cell
deriving DecidableEq

/-- A row of the merged dataframe produced by `merge_hourly`: the join keys,
the three weather measurement columns, the eight air-quality columns, and the
`city_name` column added from `CITY_MAP` (a pandas `Series.map` of a dict,
which yields `NaN` — here `none` — for keys absent from the dict). -/
structure MergedRow where
  city_id : Int
  timestamp : Int
  temperature : Cell
  humidity : Cell
  wind_speed : Cell
  aqi : Cell
  pm2_5 : Cell
  pm10 : Cell
  co : Cell
  no : Cell
  no2 : Cell
  o3 : Cell
  so2 : Cell
  city_name : Option String
deriving DecidableEq

/-- Join key of a weather row. -/
def wkey (w : WRow) : Int × Int := (w.city_id, w.timestamp)

/-- Join key of an air-quality row. -/
def akey (a : ARow) : Int × Int := (a.city_id, a.timestamp)

/-- Join key of a merged row. -/
def mkey (r : MergedRow) : Int × Int := (r.city_id, r.timestamp)

/-- The three weather cells of a merged row. -/
def wCells (r : MergedRow) : List Cell := [r.temperature, r.humidity, r.wind_speed]

/-- The eight air-quality cells of a merged row. -/
def aCells (r : MergedRow) : List Cell :=
  [r.aqi, r.pm2_5, r.pm10, r.co, r.no, r.no2, r.o3, r.so2]

/-- The cells of a weather source row, in merged-column order. -/
def wCellsOf (w : WRow) : List Cell := [w.temperature, w.humidity, w.wind_speed]

/-- The cells of an air-quality source row, in merged-column order. -/
def aCellsOf (a : ARow) : List Cell :=
  [a.aqi, a.pm2_5, a.pm10, a.co, a.no, a.no2, a.o3, a.so2]

/-- Merged row for a weather row with no air-quality match: the air columns
are `NaN` (`Cell.na`), as `pd.merge(..., how="outer")` fills them. -/
def mkLeft (w : WRow) : MergedRow :=
  ⟨w.city_id, w.timestamp, w.temperature, w.humidity, w.wind_speed,
   Cell.na, Cell.na, Cell.na, Cell.na, Cell.na, Cell.na, Cell.na, Cell.na, none⟩

/-- Merged row for a matched (weather, air-quality) pair of rows. -/
def mkBoth (w : WRow) (a : ARow) : MergedRow :=
  ⟨w.city_id, w.timestamp, w.temperature, w.humidity, w.wind_speed,
   a.aqi, a.pm2_5, a.pm10, a.co, a.no, a.no2, a.o3, a.so2, none⟩

/-- Merged row for an air-quality row with no weather match: the weather
columns are `NaN`. -/
def mkRight (a : ARow) : MergedRow :=
  ⟨a.city_id, a.timestamp, Cell.na, Cell.na, Cell.na,
   a.aqi, a.pm2_5, a.pm10, a.co, a.no, a.no2, a.o3, a.so2, none⟩

/-- Whether a weather row and an air-quality row agree on the join key
`["city_id", "timestamp"]`. -/
def sameKeyWA (w : WRow) (a : ARow) : Bool :=
  wkey w == akey a

/-- The merged rows contributed by one weather row: paired with each matching
air-quality row, or alone with `NaN` air columns when none matches. -/
def wBlock (as_ : List ARow) (w : WRow) : List MergedRow :=
  let ms := as_.filter (fun a => sameKeyWA w a)
  if ms.isEmpty then [mkLeft w] else ms.map (fun a => mkBoth w a)

/-- The row set of `pd.merge(df_w, df_a, on=["city_id","timestamp"],
how="outer")`: every weather row paired with each matching air-quality row
(or alone, with `NaN` air columns, when there is none), followed by the
air-quality rows that match no weather row, with `NaN` weather columns. -/
def outerMergeRows (ws : List WRow) (as_ : List ARow) : List MergedRow :=
  ws.flatMap (wBlock as_)
  ++ (as_.filter (fun a => !(ws.any (fun w => sameKeyWA w a)))).map mkRight

/-- Ordering used by `df.sort_values(["city_id", "timestamp"])`. -/
def mergedLE (r s : MergedRow) : Prop :=
  r.city_id < s.city_id ∨ (r.city_id = s.city_id ∧ r.timestamp ≤ s.timestamp)

instance : DecidableRel mergedLE := fun r s =>
  inferInstanceAs (Decidable (r.city_id < s.city_id ∨ (r.city_id = s.city_id ∧ r.timestamp ≤ s.timestamp)))

instance : IsTotal MergedRow mergedLE :=
  ⟨fun a b => by unfold mergedLE; omega⟩

instance : IsTrans MergedRow mergedLE :=
  ⟨fun a b c => by unfold mergedLE; omega⟩

/-- `merge_hourly` from `supabase_descriptive_stats.py`: outer-merge the two
series on `(city_id, timestamp)`, sort by `["city_id", "timestamp"]`, and add
the `city_name` column via `df["city_id"].map(CITY_MAP)` (dict map: unknown
ids become `NaN`, i.e. `none`). -/
def merge_hourly (ws : List WRow) (as_ : List ARow) : List MergedRow :=
  ((outerMergeRows ws as_).insertionSort mergedLE).map
    (fun r => { r with city_name := List.lookup r.city_id CITY_MAP })

/-- Number of weather rows carrying the join key `k`. -/
def wKeyCount (ws : List WRow) (k : Int × Int) : Nat :=
  (ws.filter (fun w => wkey w == k)).length

/-- Number of air-quality rows carrying the join key `k`. -/
def aKeyCount (as_ : List ARow) (k : Int × Int) : Nat :=
  (as_.filter (fun a => akey a == k)).length

/-- Number of merged rows carrying the join key `k`. -/
def keyCount (l : List MergedRow) (k : Int × Int) : Nat :=
  (l.filter (fun r => mkey r == k)).length

/-- The candidate numeric columns of `compute_stats`; in the merged dataframe
all of them are present, so the `if c in df.columns` filter keeps all. -/
def NUMERIC_COLS : List String :=
  ["temperature", "humidity", "wind_speed", "aqi", "pm2_5", "pm10",
   "co", "no", "no2", "o3", "so2"]

/-- Column access `sub[col]` on a merged row, for the recognized columns. -/
def getCol (r : MergedRow) (c : String) : Cell :=
  match c with
  | "temperature" => r.temperature
  | "humidity" => r.humidity
  | "wind_speed" => r.wind_speed
  | "aqi" => r.aqi
  | "pm2_5" => r.pm2_5
  | "pm10" => r.pm10
  | "co" => r.co
  | "no" => r.no
  | "no2" => r.no2
  | "o3" => r.o3
  | "so2" => r.so2
  | _ => Cell.na

/-- The non-missing coerced values of column `col` restricted to city `cid`:
`x = pd.to_numeric(sub[col], errors="coerce")` with `sub = df[df.city_id == cid]`,
keeping the `notna` entries in row order. -/
def colVals (df : List MergedRow) (cid : Int) (col : String) : List ℚ :=
  (df.filter (fun r => r.city_id == cid)).filterMap (fun r => toNumeric (getCol r col))

/-- The group keys of `df.groupby("city_id")`: the distinct city ids, in
ascending order (pandas iterates groups with sorted keys). -/
def cityKeys (df : List MergedRow) : List Int :=
  ((df.map (fun r => r.city_id)).dedup).insertionSort (· ≤ ·)

/-- One row of the tidy statistics table, as appended by `compute_stats`. The
`std` statistic is carried as its square `stdSq` (see module docstring). -/
structure StatRow where
  city_id : Int
  city_name : String
  var : String
  count : Nat
  mean : ℚ
  median : ℚ
  mode : ℚ
  stdSq : Option ℚ
  min : ℚ
  max : ℚ
deriving DecidableEq

/-- The dict literal appended by `compute_stats` for one (city, column) group
with coerced values `x`. `CITY_MAP.get(cid, str(cid))` is the name lookup with
string-form fallback; `safe_mode x` is some value because callers pass
nonempty `x`, so the `getD 0` default is never consulted. -/
def mkStatRow (cid : Int) (col : String) (x : List ℚ) : StatRow :=
  { city_id := cid
    city_name := (List.lookup cid CITY_MAP).getD (toString cid)
    var := col
    count := x.length
    mean := listMean x
    median := pdMedian x
    mode := (safe_mode x).getD 0
    stdSq := sampleVarQ x
    min := listMin x
    max := listMax x }

/-- Ordering used by `stats.sort_values(["variable", "city_id"])`. -/
def statLE (r s : StatRow) : Prop :=
  r.var < s.var ∨ (r.var = s.var ∧ r.city_id ≤ s.city_id)

instance : DecidableRel statLE := fun r s =>
  inferInstanceAs (Decidable (r.var < s.var ∨ (r.var = s.var ∧ r.city_id ≤ s.city_id)))

/-- `compute_stats` from `supabase_descriptive_stats.py`: group by city id
(sorted keys), for each recognized numeric column coerce to numeric, skip the
(city, column) pair when no value remains (`if x.notna().sum() == 0: continue`),
otherwise append the statistics row; finally sort by (variable, city_id). -/
def compute_stats (df : List MergedRow) : List StatRow :=
  let rows := (cityKeys df).flatMap (fun cid =>
    NUMERIC_COLS.filterMap (fun col =>
      let x := colVals df cid col
      if x.length = 0 then none else some (mkStatRow cid col x)))
  rows.insertionSort statLE

/-- The sentinel written for every field of a failed fetch in `air_quality.py`. -/
def NA : String := "N/A"

/-- The pieces of the weather API response that `get_weather` reads:
`data["main"]["temp"]`, `data["main"]["humidity"]`, `data["weather"][0]["main"]`,
`data["wind"]["speed"]`. A `none` field models that the corresponding key path
is missing or of unusable shape, which raises inside the `try` block. -/
structure WeatherJson where
  temp : Option String
  humidity : Option String
  weather : Option String
  wind_speed : Option String
deriving DecidableEq

/-- The four weather fields of an output row. -/
structure WeatherFields where
  temp : String
  humidity : String
  weather : String
  wind_speed : String
deriving DecidableEq

/-- `get_weather` from `air_quality.py`. The argument models the outcome of
`requests.get(...).json()`: `none` is a network/HTTP/JSON failure (an
exception before the dict is built). Any exception inside the `try` block —
including a missing field while building the dict — lands in the `except`
branch, which returns the all-sentinel record. -/
def get_weather (resp : Option WeatherJson) : WeatherFields :=
  match resp with
  | none => ⟨NA, NA, NA, NA⟩
  | some j =>
    match j.temp, j.humidity, j.weather, j.wind_speed with
    | some t, some h, some w, some ws => ⟨t, h, w, ws⟩
    | _, _, _, _ => ⟨NA, NA, NA, NA⟩

/-- The pieces of the air-pollution API response that `get_air_quality` reads
from `data = res.json()["list"][0]`: `data["main"]["aqi"]` and the seven
components. `none` fields model missing key paths. -/
structure AirJson where
  aqi : Option String
  co : Option String
  no : Option String
  no2 : Option String
  o3 : Option String
  so2 : Option String
  pm2_5 : Option String
  pm10 : Option String
deriving DecidableEq

/-- The eight air-quality fields of an output row. -/
structure AirFields where
  aqi : String
  co : String
  no : String
  no2 : String
  o3 : String
  so2 : String
  pm2_5 : String
  pm10 : String
deriving DecidableEq

/-- `get_air_quality` from `air_quality.py`; same failure discipline as
`get_weather`, with the eight-field sentinel record. -/
def get_air_quality (resp : Option AirJson) : AirFields :=
  match resp with
  | none => ⟨NA, NA, NA, NA, NA, NA, NA, NA⟩
  | some j =>
    match j.aqi, j.co, j.no, j.no2, j.o3, j.so2, j.pm2_5, j.pm10 with
    | some a, some c, some n, some n2, some o, some s, some p2, some p1 =>
      ⟨a, c, n, n2, o, s, p2, p1⟩
    | _, _, _, _, _, _, _, _ => ⟨NA, NA, NA, NA, NA, NA, NA, NA⟩

/-- `CITIES` from `air_quality.py`: name with (lat, lon), in dict insertion
order (Python dicts iterate in insertion order). -/
def CITIES : List (String × ℚ × ℚ) :=
  [("Hanoi", 21.0285, 105.8542), ("Danang", 16.0544, 108.2022)]

/-- The header row written by `crawl_and_save` (the cell list handed to
`csv.writer.writerow`). -/
def HEADER : List String :=
  ["datetime", "city", "temp", "humidity", "weather", "wind_speed",
   "aqi", "co", "no", "no2", "o3", "so2", "pm2_5", "pm10"]

/-- The weather cells of a data row, in output-column order. -/
def weatherCells (w : WeatherFields) : List String :=
  [w.temp, w.humidity, w.weather, w.wind_speed]

/-- The air-quality cells of a data row, in output-column order. -/
def airCells (a : AirFields) : List String :=
  [a.aqi, a.co, a.no, a.no2, a.o3, a.so2, a.pm2_5, a.pm10]

/-- The data row `crawl_and_save` writes for one configured city. `fetchW` and
`fetchA` model the two independent HTTP fetches, keyed by the (lat, lon) the
code passes; `timestamp` is the single capture time computed before the loop. -/
def rowFor (fetchW : ℚ × ℚ → Option WeatherJson) (fetchA : ℚ × ℚ → Option AirJson)
    (timestamp : String) (c : String × ℚ × ℚ) : List String :=
  [timestamp, c.1]
  ++ weatherCells (get_weather (fetchW (c.2.1, c.2.2)))
  ++ airCells (get_air_quality (fetchA (c.2.1, c.2.2)))

/-- `crawl_and_save` from `air_quality.py`: the full content of the rewritten
CSV file as a list of cell rows — the fixed header, then one row per entry of
`CITIES` in order, all using the one `timestamp` computed before the loop. -/
def crawl_and_save (fetchW : ℚ × ℚ → Option WeatherJson) (fetchA : ℚ × ℚ → Option AirJson)
    (timestamp : String) : List (List String) :=
  HEADER :: CITIES.map (rowFor fetchW fetchA timestamp)

/-- One collector run over an existing file: `open(CSV_FILE, "w")` truncates,
so the resulting file content ignores the previous content entirely. -/
def runCollector (_prevFile : List (List String)) (fetchW : ℚ × ℚ → Option WeatherJson)
    (fetchA : ℚ × ℚ → Option AirJson) (timestamp : String) : List (List String) :=
  crawl_and_save fetchW fetchA timestamp

/-- Whether the modelled weather fetch takes the `except` branch. -/
def wFailed (resp : Option WeatherJson) : Bool :=
  match resp with
  | none => true
  | some j => !(j.temp.isSome && j.humidity.isSome && j.weather.isSome && j.wind_speed.isSome)

/-- Whether the modelled air-quality fetch takes the `except` branch. -/
def aFailed (resp : Option AirJson) : Bool :=
  match resp with
  | none => true
  | some j => !(j.aqi.isSome && j.co.isSome && j.no.isSome && j.no2.isSome &&
                j.o3.isSome && j.so2.isSome && j.pm2_5.isSome && j.pm10.isSome)

/-- Database connection events of one reporter run. -/
inductive DbEv where
  | connectEv : DbEv
  | closeEv : DbEv
deriving DecidableEq

/-- The statements of `main` between `conn = connect()` and `conn.close()`
(`read_weather`, `read_air`, `merge_hourly`, `compute_stats`, the optional
exports, the plot calls): each entry of `stepFails` says whether the
corresponding statement raises. `main` has no `try`/`finally` (and no `with`)
around the connection, so a raising statement propagates and the trailing
`conn.close()` is never reached; only a run in which every statement succeeds
executes `close`. -/
def stepsAfterConnect : List Bool → List DbEv
  | [] => [DbEv.closeEv]
  | f :: fs => if f then [] else stepsAfterConnect fs

/-- Connection-event trace of one `main` run of the reporter. -/
def mainDbTrace (stepFails : List Bool) : List DbEv :=
  DbEv.connectEv :: stepsAfterConnect stepFails

/-- Splits a character list at commas, Python `s.split(",")`
(`"".split(",") == [""]`, separators are not merged). The accumulator holds
the current token reversed. -/
def pySplitCommaAux : List Char → List Char → List (List Char)
  | [], acc => [acc.reverse]
  | c :: cs, acc =>
    if c = ',' then acc.reverse :: pySplitCommaAux cs []
    else pySplitCommaAux cs (c :: acc)

/-- Python `s.split(",")` on a string represented as its character list. -/
def pySplitComma (s : List Char) : List (List Char) := pySplitCommaAux s []

/-- Python `s.strip()`: drop leading and trailing whitespace. -/
def pyStrip (s : List Char) : List Char :=
  ((s.dropWhile Char.isWhitespace).reverse.dropWhile Char.isWhitespace).reverse

/-- Value of a nonempty digit string. -/
def digitsVal (s : List Char) : Nat :=
  s.foldl (fun n c => n * 10 + (c.toNat - 48)) 0

/-- Parses an unsigned decimal numeral: every character a digit, at least one. -/
def pyDigits? (s : List Char) : Option Nat :=
  if !s.isEmpty && s.all Char.isDigit then some (digitsVal s) else none

/-- Python `int(s)` on an already-stripped string, as `Option`: an optional
sign followed by a nonempty run of digits succeeds, anything else raises
(`none`). -/
def pyInt? (s : List Char) : Option Int :=
  match s with
  | '-' :: rest => (pyDigits? rest).map (fun n => -(n : Int))
  | '+' :: rest => (pyDigits? rest).map (fun n => (n : Int))
  | _ => (pyDigits? s).map (fun n => (n : Int))

/-- The body of the `--cities` parsing loop for one comma-separated token:
strip it, skip it when empty (`if x:`), then `try: int(x) except: pass` — an
unparseable token is dropped with no error or warning. -/
def parseToken (tok : List Char) : Option Int :=
  if (pyStrip tok).isEmpty then none else pyInt? (pyStrip tok)

/-- The `--cities` parsing of `main` in `supabase_descriptive_stats.py`:
split on commas, keep the tokens that parse as integers, and fall back to
`[1, 2]` when nothing parsed (`if not city_ids`). -/
def parse_cities (s : List Char) : List Int :=
  let city_ids := (pySplitComma s).filterMap parseToken
  if city_ids.isEmpty then [1, 2] else city_ids

/-- Default merged row (used only as the default of `headD`/`getD`). -/
def mrowD : MergedRow :=
  ⟨0, 0, Cell.na, Cell.na, Cell.na, Cell.na, Cell.na, Cell.na, Cell.na,
   Cell.na, Cell.na, Cell.na, Cell.na, none⟩

/-- Scenario input: weather series with hours 9 and 10 for city 1. -/
def wEx1 : List WRow :=
  [⟨1, 9, Cell.num 25, Cell.num 60, Cell.num 3⟩,
   ⟨1, 10, Cell.num 26, Cell.num 55, Cell.num 4⟩]

/-- Scenario input: air series with hours 10 and 11 for city 1. -/
def aEx1 : List ARow :=
  [⟨1, 10, Cell.num 3, Cell.num 12, Cell.num 20, Cell.num 300, Cell.num 1,
    Cell.num 7, Cell.num 40, Cell.num 5⟩,
   ⟨1, 11, Cell.num 2, Cell.num 10, Cell.num 18, Cell.num 280, Cell.num 1,
    Cell.num 6, Cell.num 38, Cell.num 4⟩]

/-- A merged row with only the `aqi` column populated, for city `cid`. -/
def aqiRow (cid t : Int) (q : ℚ) : MergedRow :=
  ⟨cid, t, Cell.na, Cell.na, Cell.na, Cell.num q, Cell.na, Cell.na, Cell.na,
   Cell.na, Cell.na, Cell.na, Cell.na, none⟩

/-- Scenario input for the statistics: column `aqi` with values
`[10, 20, 20, 30]` for city 1. -/
def dfAqi : List MergedRow :=
  [aqiRow 1 0 10, aqiRow 1 1 20, aqiRow 1 2 20, aqiRow 1 3 30]

/-- Input with a single observation: one `aqi` value for city 1. -/
def dfSingle : List MergedRow := [aqiRow 1 0 10]

/-- Input frame for the emission witness: one `aqi` value for city 2. -/
def dfC2 : List MergedRow := [aqiRow 2 5 7]

/-- A weather row for city 7, an id absent from `CITY_MAP`. -/
def w7 : WRow := ⟨7, 0, Cell.num 20, Cell.num 50, Cell.num 2⟩

theorem listMin_le_of_mem : ∀ {x : List ℚ} {a : ℚ}, a ∈ x → listMin x ≤ a
  | [], _, h => absurd h (List.not_mem_nil _)
  | [b], a, h => by
    rcases List.mem_singleton.mp h with rfl
    exact le_of_eq rfl
  | b :: c :: t, a, h => by
    rcases List.mem_cons.mp h with rfl | h2
    · exact min_le_left _ _
    · exact le_trans (min_le_right _ _) (listMin_le_of_mem h2)

theorem le_listMax_of_mem : ∀ {x : List ℚ} {a : ℚ}, a ∈ x → a ≤ listMax x
  | [], _, h => absurd h (List.not_mem_nil _)
  | [b], a, h => by
    rcases List.mem_singleton.mp h with rfl
    exact le_of_eq rfl
  | b :: c :: t, a, h => by
    rcases List.mem_cons.mp h with rfl | h2
    · exact le_max_left _ _
    · exact le_trans (le_listMax_of_mem h2) (le_max_right _ _)

theorem listMean_bounds {x : List ℚ} (hx : x ≠ []) :
    listMin x ≤ listMean x ∧ listMean x ≤ listMax x := by
  have hl : 0 < (x.length : ℚ) := by
    exact_mod_cast List.length_pos.mpr hx
  constructor
  · rw [listMean, le_div_iff₀ hl]
    have h := List.card_nsmul_le_sum x (listMin x) (fun b hb => listMin_le_of_mem hb)
    rw [nsmul_eq_mul] at h
    linarith
  · rw [listMean, div_le_iff₀ hl]
    have h := List.sum_le_card_nsmul x (listMax x) (fun b hb => le_listMax_of_mem hb)
    rw [nsmul_eq_mul] at h
    linarith

theorem pdMedian_rep {x : List ℚ} (hx : x ≠ []) :
    ∃ a ∈ x, ∃ b ∈ x, pdMedian x = (a + b) / 2 := by
  have hperm := List.perm_insertionSort (· ≤ · : ℚ → ℚ → Prop) x
  have hpos : 0 < (sortQ x).length := by
    rw [sortQ, hperm.length_eq]
    exact List.length_pos.mpr hx
  have hmem : ∀ i, i < (sortQ x).length → (sortQ x).getD i 0 ∈ x := by
    intro i hi
    have h1 : (sortQ x).getD i 0 ∈ sortQ x := by
      rw [List.getD_eq_getElem _ _ hi]
      exact List.getElem_mem hi
    exact hperm.mem_iff.mp h1
  rw [pdMedian]
  split_ifs with hodd
  · exact ⟨(sortQ x).getD ((sortQ x).length / 2) 0,
      hmem _ (Nat.div_lt_self hpos (by omega)),
      (sortQ x).getD ((sortQ x).length / 2) 0,
      hmem _ (Nat.div_lt_self hpos (by omega)), by ring⟩
  · exact ⟨(sortQ x).getD ((sortQ x).length / 2 - 1) 0, hmem _ (by omega),
      (sortQ x).getD ((sortQ x).length / 2) 0, hmem _ (by omega), rfl⟩

theorem pdMedian_bounds {x : List ℚ} (hx : x ≠ []) :
    listMin x ≤ pdMedian x ∧ pdMedian x ≤ listMax x := by
  obtain ⟨a, ha, b, hb, hab⟩ := pdMedian_rep hx
  have h1 := listMin_le_of_mem ha
  have h2 := listMin_le_of_mem hb
  have h3 := le_listMax_of_mem ha
  have h4 := le_listMax_of_mem hb
  rw [hab]
  constructor <;> linarith

theorem le_foldrMax : ∀ {ns : List Nat} {n : Nat}, n ∈ ns → n ≤ ns.foldr max 0
  | m :: t, n, h => by
    rcases List.mem_cons.mp h with rfl | h2
    · exact le_max_left _ _
    · exact le_trans (le_foldrMax h2) (le_max_right _ _)

theorem foldrMax_mem : ∀ {ns : List Nat}, ns.foldr max 0 ∈ ns ∨ ns.foldr max 0 = 0
  | [] => Or.inr rfl
  | m :: t => by
    have hm : (m :: t).foldr max 0 = max m (t.foldr max 0) := rfl
    rw [hm]
    rcases le_total (t.foldr max 0) m with h | h
    · rw [max_eq_left h]
      exact Or.inl (List.mem_cons_self _ _)
    · rw [max_eq_right h]
      rcases @foldrMax_mem t with h2 | h2
      · exact Or.inl (List.mem_cons_of_mem _ h2)
      · exact Or.inr h2

theorem count_le_maxCount {x : List ℚ} {v : ℚ} (h : v ∈ x) : x.count v ≤ maxCount x :=
  le_foldrMax (List.mem_map_of_mem (fun v => x.count v) h)

theorem maxCount_attained {x : List ℚ} (hx : x ≠ []) :
    ∃ v ∈ x, x.count v = maxCount x := by
  rcases @foldrMax_mem (x.map (fun v => x.count v)) with h | h
  · obtain ⟨v, hv, hfv⟩ := List.mem_map.mp h
    exact ⟨v, hv, hfv⟩
  · obtain ⟨a, ha⟩ := List.exists_mem_of_ne_nil x hx
    have h1 : 0 < x.count a := List.count_pos_iff.mpr ha
    have h2 := count_le_maxCount ha
    have h3 : maxCount x = 0 := h
    omega

theorem mem_pdMode_iff {x : List ℚ} {v : ℚ} :
    v ∈ pdMode x ↔ v ∈ x ∧ x.count v = maxCount x := by
  rw [pdMode, List.mem_filter, List.mem_dedup, sortQ,
    (List.perm_insertionSort _ _).mem_iff]
  simp only [beq_iff_eq]

theorem pdMode_sorted (x : List ℚ) : List.Sorted (· ≤ ·) (pdMode x) := by
  have h1 : List.Sorted (· ≤ ·) (sortQ x) := List.sorted_insertionSort _ x
  have h2 : List.Sorted (· ≤ ·) (sortQ x).dedup := h1.sublist (List.dedup_sublist _)
  exact h2.sublist (List.filter_sublist _)

theorem sorted_head_le {l : List ℚ} {m v : ℚ} (hs : List.Sorted (· ≤ ·) l)
    (hh : l.head? = some m) (hv : v ∈ l) : m ≤ v := by
  cases l with
  | nil => cases hh
  | cons a t =>
    injection hh with hh
    subst hh
    rcases List.mem_cons.mp hv with rfl | h
    · exact le_refl _
    · exact List.rel_of_sorted_cons hs v h

theorem safe_mode_spec {x : List ℚ} (hx : x ≠ []) :
    ∃ m, safe_mode x = some m ∧ m ∈ x ∧ x.count m = maxCount x ∧
      (∀ v ∈ x, x.count v ≤ x.count m) ∧
      (∀ v ∈ x, x.count v = x.count m → m ≤ v) := by
  obtain ⟨v0, hv0, hc0⟩ := maxCount_attained hx
  have hv0m : v0 ∈ pdMode x := mem_pdMode_iff.mpr ⟨hv0, hc0⟩
  obtain ⟨m, hm⟩ : ∃ m, (pdMode x).head? = some m := by
    cases hmode : pdMode x with
    | nil => rw [hmode] at hv0m; cases hv0m
    | cons a t => exact ⟨a, rfl⟩
  have hmm : m ∈ pdMode x := by
    cases hmode : pdMode x with
    | nil => rw [hmode] at hm; cases hm
    | cons a t =>
      rw [hmode] at hm
      injection hm with hm
      subst hm
      exact List.mem_cons_self _ _
  obtain ⟨hmx, hmc⟩ := mem_pdMode_iff.mp hmm
  refine ⟨m, hm, hmx, hmc, ?_, ?_⟩
  · intro v hv
    rw [hmc]
    exact count_le_maxCount hv
  · intro v hv hvc
    exact sorted_head_le (pdMode_sorted x) hm
      (mem_pdMode_iff.mpr ⟨hv, by rw [hvc, hmc]⟩)

theorem mem_cityKeys {df : List MergedRow} {cid : Int} :
    cid ∈ cityKeys df ↔ cid ∈ df.map (fun r => r.city_id) := by
  rw [cityKeys, (List.perm_insertionSort _ _).mem_iff]
  exact List.mem_dedup

theorem colVals_ne_nil_mem {df : List MergedRow} {cid : Int} {col : String}
    (h : colVals df cid col ≠ []) : cid ∈ df.map (fun r => r.city_id) := by
  rw [colVals] at h
  by_contra hmem
  apply h
  have hfil : df.filter (fun r => r.city_id == cid) = [] := by
    rw [List.filter_eq_nil_iff]
    intro r hr hbeq
    exact hmem (List.mem_map.mpr ⟨r, hr, by simpa using hbeq⟩)
  rw [hfil]
  rfl

theorem mem_compute_stats {df : List MergedRow} {r : StatRow} :
    r ∈ compute_stats df ↔
      ∃ cid col, col ∈ NUMERIC_COLS ∧ colVals df cid col ≠ [] ∧
        r = mkStatRow cid col (colVals df cid col) := by
  unfold compute_stats
  rw [(List.perm_insertionSort _ _).mem_iff]
  simp only [List.mem_flatMap, List.mem_filterMap]
  constructor
  · rintro ⟨cid, hcid, col, hcol, hif⟩
    by_cases h0 : (colVals df cid col).length = 0
    · rw [if_pos h0] at hif
      cases hif
    · rw [if_neg h0] at hif
      injection hif with hif
      exact ⟨cid, col, hcol, fun hnil => h0 (by rw [hnil]; rfl), hif.symm⟩
  · rintro ⟨cid, col, hcol, hnil, hr⟩
    refine ⟨cid, mem_cityKeys.mpr (colVals_ne_nil_mem hnil), col, hcol, ?_⟩
    rw [if_neg (fun h0 => hnil (List.length_eq_zero.mp h0)), hr]

theorem keyBeq_comm (k j : Int × Int) : (k == j) = (j == k) := by
  by_cases h : k = j
  · subst h; rfl
  · rw [beq_eq_false_iff_ne.mpr h, beq_eq_false_iff_ne.mpr (Ne.symm h)]

theorem unique_filter_eq {α : Type} (p : α → Bool) (l : List α) (x : α)
    (hx : x ∈ l) (hpx : p x = true) (hle : (l.filter p).length ≤ 1) :
    l.filter p = [x] := by
  have hmem : x ∈ l.filter p := List.mem_filter.mpr ⟨hx, hpx⟩
  cases hfil : l.filter p with
  | nil => rw [hfil] at hmem; cases hmem
  | cons a t =>
    rw [hfil] at hmem hle
    have ht : t = [] := by
      simp only [List.length_cons] at hle
      exact List.length_eq_zero.mp (by omega)
    subst ht
    rcases List.mem_singleton.mp hmem with rfl
    rfl

theorem wBlock_shape {as_ : List ARow} (hA : ∀ k, aKeyCount as_ k ≤ 1) (w : WRow) :
    ∃ r, wBlock as_ w = [r] ∧ mkey r = wkey w ∧ wCells r = wCellsOf w ∧
      aCells r = ((as_.filter (fun a => akey a == wkey w)).head?.elim
        (List.replicate 8 Cell.na) aCellsOf) := by
  have hms : as_.filter (fun a => sameKeyWA w a)
      = as_.filter (fun a => akey a == wkey w) := by
    refine List.filter_congr ?_
    intro a _
    rw [sameKeyWA, keyBeq_comm]
  rw [wBlock, hms]
  cases hfil : as_.filter (fun a => akey a == wkey w) with
  | nil => exact ⟨mkLeft w, rfl, rfl, rfl, rfl⟩
  | cons a t =>
    have hlen := hA (wkey w)
    rw [aKeyCount, hfil] at hlen
    have ht : t = [] := by
      simp only [List.length_cons] at hlen
      exact List.length_eq_zero.mp (by omega)
    subst ht
    exact ⟨mkBoth w a, rfl, rfl, rfl, rfl⟩

theorem flatMap_keyCount {as_ : List ARow} (hA : ∀ k, aKeyCount as_ k ≤ 1) :
    ∀ (ws : List WRow) (k : Int × Int),
      (ws.flatMap (wBlock as_)).countP (fun r => mkey r == k)
        = ws.countP (fun w => wkey w == k)
  | [], _ => rfl
  | w :: ws, k => by
    obtain ⟨r, hr, hkey, -, -⟩ := wBlock_shape hA w
    rw [List.flatMap_cons, List.countP_append, hr, flatMap_keyCount hA ws k,
      List.countP_cons, List.countP_cons]
    simp only [List.countP_nil, hkey]
    omega

theorem rightOnly_keyCount (ws : List WRow) (as_ : List ARow) (k : Int × Int) :
    ((as_.filter (fun a => !(ws.any (fun w => sameKeyWA w a)))).map mkRight).countP
        (fun r => mkey r == k)
      = as_.countP (fun a => (akey a == k) && !(ws.any (fun w => sameKeyWA w a))) := by
  rw [List.countP_map, List.countP_filter]
  rfl

theorem mem_wkeys_iff {ws : List WRow} {k : Int × Int} :
    k ∈ ws.map wkey ↔ 0 < ws.countP (fun w => wkey w == k) := by
  rw [List.countP_pos_iff]
  simp only [List.mem_map, beq_iff_eq]

theorem mem_akeys_iff {as_ : List ARow} {k : Int × Int} :
    k ∈ as_.map akey ↔ 0 < as_.countP (fun a => akey a == k) := by
  rw [List.countP_pos_iff]
  simp only [List.mem_map, beq_iff_eq]

theorem merge_hourly_countP (ws : List WRow) (as_ : List ARow) (k : Int × Int) :
    keyCount (merge_hourly ws as_) k
      = (outerMergeRows ws as_).countP (fun r => mkey r == k) := by
  rw [keyCount, ← List.countP_eq_length_filter, merge_hourly, List.countP_map,
    ← (List.perm_insertionSort mergedLE (outerMergeRows ws as_)).countP_eq]
  rfl

theorem merge_hourly_keyCount {ws : List WRow} {as_ : List ARow}
    (hW : ∀ k, wKeyCount ws k ≤ 1) (hA : ∀ k, aKeyCount as_ k ≤ 1) (k : Int × Int) :
    keyCount (merge_hourly ws as_) k
      = if k ∈ ws.map wkey ∨ k ∈ as_.map akey then 1 else 0 := by
  have hWc : ∀ j, ws.countP (fun w => wkey w == j) ≤ 1 := by
    intro j
    have := hW j
    rw [wKeyCount, ← List.countP_eq_length_filter] at this
    exact this
  have hAc : ∀ j, as_.countP (fun a => akey a == j) ≤ 1 := by
    intro j
    have := hA j
    rw [aKeyCount, ← List.countP_eq_length_filter] at this
    exact this
  rw [merge_hourly_countP, outerMergeRows, List.countP_append,
    flatMap_keyCount hA ws k, rightOnly_keyCount]
  by_cases hw : k ∈ ws.map wkey
  · have h2 : ws.countP (fun w => wkey w == k) = 1 := by
      have hpos := mem_wkeys_iff.mp hw
      have := hWc k
      omega
    have h3 : as_.countP (fun a => (akey a == k) && !(ws.any (fun w => sameKeyWA w a))) = 0 := by
      rw [List.countP_eq_zero]
      intro a _ hpred
      rw [Bool.and_eq_true] at hpred
      obtain ⟨hak, hany⟩ := hpred
      obtain ⟨w, hwmem, hwk⟩ := List.mem_map.mp hw
      have hkey : sameKeyWA w a = true := by
        rw [sameKeyWA, beq_iff_eq, hwk, beq_iff_eq.mp hak]
      have : ws.any (fun w => sameKeyWA w a) = true :=
        List.any_eq_true.mpr ⟨w, hwmem, hkey⟩
      rw [this] at hany
      cases hany
    rw [h2, h3, if_pos (Or.inl hw)]
  · have h2 : ws.countP (fun w => wkey w == k) = 0 := by
      rw [List.countP_eq_zero]
      intro w hwm hp
      exact hw (List.mem_map.mpr ⟨w, hwm, beq_iff_eq.mp hp⟩)
    by_cases hak : k ∈ as_.map akey
    · have h3 : as_.countP (fun a => (akey a == k) && !(ws.any (fun w => sameKeyWA w a)))
          = as_.countP (fun a => akey a == k) := by
        refine List.countP_congr ?_
        intro a _
        by_cases hbe : (akey a == k) = true
        · have hnone : ws.any (fun w => sameKeyWA w a) = false := by
            rw [← Bool.not_eq_true, List.any_eq_true]
            rintro ⟨w, hwm, hkey⟩
            rw [sameKeyWA, beq_iff_eq] at hkey
            exact hw (List.mem_map.mpr ⟨w, hwm, by rw [hkey, beq_iff_eq.mp hbe]⟩)
          rw [hbe, hnone]
          rfl
        · rw [Bool.not_eq_true] at hbe
          rw [hbe]
          rfl
      have h4 : as_.countP (fun a => akey a == k) = 1 := by
        have hpos := mem_akeys_iff.mp hak
        have := hAc k
        omega
      rw [h2, h3, h4, if_pos (Or.inr hak)]
    · have h3 : as_.countP (fun a => (akey a == k) && !(ws.any (fun w => sameKeyWA w a))) = 0 := by
        rw [List.countP_eq_zero]
        intro a ham hpred
        rw [Bool.and_eq_true] at hpred
        exact hak (List.mem_map.mpr ⟨a, ham, beq_iff_eq.mp hpred.1⟩)
      rw [h2, h3, if_neg (by tauto)]

theorem merge_hourly_sorted (ws : List WRow) (as_ : List ARow) :
    List.Sorted mergedLE (merge_hourly ws as_) := by
  rw [merge_hourly]
  refine List.Pairwise.map _ ?_ (List.sorted_insertionSort mergedLE _)
  intro a b h
  exact h

theorem merge_hourly_cells {ws : List WRow} {as_ : List ARow}
    (hW : ∀ k, wKeyCount ws k ≤ 1) (hA : ∀ k, aKeyCount as_ k ≤ 1) :
    ∀ r ∈ merge_hourly ws as_,
      wCells r = ((ws.filter (fun w => wkey w == mkey r)).head?.elim
        [Cell.na, Cell.na, Cell.na] wCellsOf)
      ∧ aCells r = ((as_.filter (fun a => akey a == mkey r)).head?.elim
        (List.replicate 8 Cell.na) aCellsOf) := by
  intro r hr
  rw [merge_hourly] at hr
  obtain ⟨r0, hr0, rfl⟩ := List.mem_map.mp hr
  rw [(List.perm_insertionSort mergedLE _).mem_iff, outerMergeRows,
    List.mem_append] at hr0
  have hwc : wCells { r0 with city_name := List.lookup r0.city_id CITY_MAP } = wCells r0 := rfl
  have hac : aCells { r0 with city_name := List.lookup r0.city_id CITY_MAP } = aCells r0 := rfl
  have hk : mkey { r0 with city_name := List.lookup r0.city_id CITY_MAP } = mkey r0 := rfl
  rw [hwc, hac, hk]
  rcases hr0 with hl | hrr
  · obtain ⟨w, hwm, hblock⟩ := List.mem_flatMap.mp hl
    obtain ⟨rb, hrb, hbkey, hbw, hba⟩ := wBlock_shape hA w
    rw [hrb] at hblock
    have heq := List.mem_singleton.mp hblock
    rw [← heq] at hbkey hbw hba
    have hfw : ws.filter (fun v => wkey v == mkey r0) = [w] := by
      simp only [hbkey]
      refine unique_filter_eq _ _ _ hwm (beq_iff_eq.mpr rfl) ?_
      have := hW (wkey w)
      rw [wKeyCount] at this
      exact this
    constructor
    · rw [hfw]
      exact hbw
    · simp only [hbkey]
      exact hba
  · obtain ⟨a, hamem, rfl⟩ := List.mem_map.mp hrr
    rw [List.mem_filter] at hamem
    obtain ⟨hams, hnotany⟩ := hamem
    constructor
    · have hfw : ws.filter (fun v => wkey v == mkey (mkRight a)) = [] := by
        rw [List.filter_eq_nil_iff]
        intro v hv hbe
        have hany : ws.any (fun w => sameKeyWA w a) = true :=
          List.any_eq_true.mpr ⟨v, hv, hbe⟩
        rw [hany] at hnotany
        cases hnotany
      rw [hfw]
      rfl
    · have hfa : as_.filter (fun b => akey b == mkey (mkRight a)) = [a] := by
        refine unique_filter_eq _ _ _ hams (beq_iff_eq.mpr rfl) ?_
        have := hA (akey a)
        rw [aKeyCount] at this
        exact this
      rw [hfa]
      rfl

theorem beq_instances_eq (x k : Int × Int) :
    (@BEq.beq _ instBEqOfDecidableEq x k) = (x == k) := by
  by_cases h : x = k
  · have h1 : (@BEq.beq _ instBEqOfDecidableEq x k) = true := by
      show decide (x = k) = true
      simp [h]
    have h2 : (x == k) = true := beq_iff_eq.mpr h
    rw [h1, h2]
  · have h1 : (@BEq.beq _ instBEqOfDecidableEq x k) = false := by
      show decide (x = k) = false
      simp [h]
    have h2 : (x == k) = false := beq_eq_false_iff_ne.mpr h
    rw [h1, h2]

theorem wKeyCount_eq_count {ws : List WRow} (k : Int × Int) :
    wKeyCount ws k = @List.count _ instBEqOfDecidableEq k (ws.map wkey) := by
  rw [wKeyCount, ← List.countP_eq_length_filter]
  show ws.countP (fun w => wkey w == k)
      = (ws.map wkey).countP (fun x => @BEq.beq _ instBEqOfDecidableEq x k)
  rw [List.countP_map]
  refine List.countP_congr ?_
  intro w _
  show (wkey w == k) = true ↔ (@BEq.beq _ instBEqOfDecidableEq (wkey w) k) = true
  rw [beq_instances_eq]

theorem aKeyCount_eq_count {as_ : List ARow} (k : Int × Int) :
    aKeyCount as_ k = @List.count _ instBEqOfDecidableEq k (as_.map akey) := by
  rw [aKeyCount, ← List.countP_eq_length_filter]
  show as_.countP (fun a => akey a == k)
      = (as_.map akey).countP (fun x => @BEq.beq _ instBEqOfDecidableEq x k)
  rw [List.countP_map]
  refine List.countP_congr ?_
  intro a _
  show (akey a == k) = true ↔ (@BEq.beq _ instBEqOfDecidableEq (akey a) k) = true
  rw [beq_instances_eq]

theorem wKeyCount_le_one_iff {ws : List WRow} :
    (∀ k, wKeyCount ws k ≤ 1) ↔ (ws.map wkey).Nodup := by
  rw [List.nodup_iff_count_le_one]
  constructor
  · intro h k
    rw [← wKeyCount_eq_count]
    exact h k
  · intro h k
    rw [wKeyCount_eq_count]
    exact h k

theorem aKeyCount_le_one_iff {as_ : List ARow} :
    (∀ k, aKeyCount as_ k ≤ 1) ↔ (as_.map akey).Nodup := by
  rw [List.nodup_iff_count_le_one]
  constructor
  · intro h k
    rw [← aKeyCount_eq_count]
    exact h k
  · intro h k
    rw [aKeyCount_eq_count]
    exact h k

theorem get_weather_failed {resp : Option WeatherJson} (h : wFailed resp = true) :
    get_weather resp = ⟨NA, NA, NA, NA⟩ := by
  cases resp with
  | none => rfl
  | some j =>
    obtain ⟨t, hu, w2, ws2⟩ := j
    cases t <;> cases hu <;> cases w2 <;> cases ws2 <;>
      first
        | rfl
        | (exfalso; simp [wFailed] at h)

theorem get_air_failed {resp : Option AirJson} (h : aFailed resp = true) :
    get_air_quality resp = ⟨NA, NA, NA, NA, NA, NA, NA, NA⟩ := by
  cases resp with
  | none => rfl
  | some j =>
    obtain ⟨f1, f2, f3, f4, f5, f6, f7, f8⟩ := j
    cases f1 <;> cases f2 <;> cases f3 <;> cases f4 <;>
      cases f5 <;> cases f6 <;> cases f7 <;> cases f8 <;>
      first
        | rfl
        | (exfalso; simp [aFailed] at h)

theorem closeEv_mem_steps : ∀ fs : List Bool,
    (DbEv.closeEv ∈ stepsAfterConnect fs ↔ fs.all (fun b => !b) = true)
  | [] => by simp [stepsAfterConnect]
  | f :: fs => by
    cases f with
    | true => simp [stepsAfterConnect]
    | false => simp [stepsAfterConnect, closeEv_mem_steps fs]

/-- C1: when each source series has at most one row per (city identifier,
hour), `merge_hourly` is an outer join on `(city_id, timestamp)`: every key
present in either series appears in the merged table exactly once and no
other key appears; every merged row carries the cells of its unique matching
weather row (all-`NaN` weather columns when there is none) and of its unique
matching air row (all-`NaN` air columns when there is none); and the merged
rows are sorted by (city identifier, hour) ascending. -/
theorem merge_hourly_outer_join (ws : List WRow) (as_ : List ARow)
    (hW : ∀ k, wKeyCount ws k ≤ 1) (hA : ∀ k, aKeyCount as_ k ≤ 1) :
    (∀ k, keyCount (merge_hourly ws as_) k
        = if k ∈ ws.map wkey ∨ k ∈ as_.map akey then 1 else 0)
    ∧ (∀ r ∈ merge_hourly ws as_,
        wCells r = ((ws.filter (fun w => wkey w == mkey r)).head?.elim
          [Cell.na, Cell.na, Cell.na] wCellsOf)
        ∧ aCells r = ((as_.filter (fun a => akey a == mkey r)).head?.elim
          (List.replicate 8 Cell.na) aCellsOf))
    ∧ List.Sorted mergedLE (merge_hourly ws as_) :=
  ⟨merge_hourly_keyCount hW hA, merge_hourly_cells hW hA, merge_hourly_sorted ws as_⟩

/-- C1 witness: the spec scenario — weather hours 9 and 10 and air hours
10 and 11 for city 1 satisfy the uniqueness hypotheses, the merged table has
exactly 3 rows and is sorted. -/
theorem merge_hourly_outer_join_witness :
    (merge_hourly wEx1 aEx1).length = 3 ∧ List.Sorted mergedLE (merge_hourly wEx1 aEx1) :=
  ⟨by decide, (merge_hourly_outer_join wEx1 aEx1
    (wKeyCount_le_one_iff.mpr (by decide)) (aKeyCount_le_one_iff.mpr (by decide))).2.2⟩

/-- C2: `compute_stats` emits a row for a (city, recognized numeric column)
pair exactly when at least one value of that column in that city's group
coerces to a number; for every emitted row the count equals the number of
non-missing coerced values, min ≤ median ≤ max, and the mean lies in
[min, max]. -/
theorem compute_stats_emission_and_bounds (df : List MergedRow) :
    (∀ cid col, (∃ r ∈ compute_stats df, r.city_id = cid ∧ r.var = col) ↔
        (col ∈ NUMERIC_COLS ∧ colVals df cid col ≠ []))
    ∧ (∀ r ∈ compute_stats df,
        r.count = (colVals df r.city_id r.var).length
        ∧ r.min ≤ r.median ∧ r.median ≤ r.max
        ∧ r.min ≤ r.mean ∧ r.mean ≤ r.max) := by
  constructor
  · intro cid col
    constructor
    · rintro ⟨r, hr, rfl, rfl⟩
      obtain ⟨cid2, col2, hcol2, hnil2, hr2⟩ := mem_compute_stats.mp hr
      have hc : r.city_id = cid2 := by rw [hr2]; rfl
      have hv : r.var = col2 := by rw [hr2]; rfl
      rw [hc, hv]
      exact ⟨hcol2, hnil2⟩
    · rintro ⟨hcol, hnil⟩
      exact ⟨mkStatRow cid col (colVals df cid col),
        mem_compute_stats.mpr ⟨cid, col, hcol, hnil, rfl⟩, rfl, rfl⟩
  · intro r hr
    obtain ⟨cid, col, hcol, hnil, hr2⟩ := mem_compute_stats.mp hr
    subst hr2
    exact ⟨rfl, (pdMedian_bounds hnil).1, (pdMedian_bounds hnil).2,
      (listMean_bounds hnil).1, (listMean_bounds hnil).2⟩

/-- C2 witness: on a frame holding one aqi value for city 2, the emission
criterion of the theorem yields the (2, aqi) stats row. -/
theorem compute_stats_emission_and_bounds_witness :
    ∃ r ∈ compute_stats dfC2, r.city_id = 2 ∧ r.var = "aqi" :=
  ((compute_stats_emission_and_bounds dfC2).1 2 "aqi").mpr ⟨by decide, by decide⟩

/-- C3: stats on column aqi with values [10, 20, 20, 30] for one city emit
exactly one row with count 4, mean 20, median 20, mode 20, min 10, max 30
and sample variance 200/3 with the n−1 denominator — so the emitted std is
sqrt(200/3) = 8.1649..., pinned by 8.1649² < 200/3 < 8.1650². All values are
exact rationals here, modelling the float coercion of the code. -/
theorem compute_stats_aqi_scenario :
    compute_stats dfAqi
      = [{ city_id := 1, city_name := "Hanoi", var := "aqi", count := 4, mean := 20,
           median := 20, mode := 20, stdSq := some (200/3), min := 10, max := 30 }]
    ∧ ((81649 : ℚ)/10000)^2 < 200/3 ∧ (200/3 : ℚ) < ((8165 : ℚ)/1000)^2 := by
  refine ⟨?_, by norm_num, by norm_num⟩
  have h : compute_stats dfAqi = [mkStatRow 1 "aqi" [10, 20, 20, 30]] := rfl
  rw [h, mkStatRow]
  have hs : sortQ [(10 : ℚ), 20, 20, 30] = [10, 20, 20, 30] := by decide
  have hmode : safe_mode [(10 : ℚ), 20, 20, 30] = some 20 := by decide
  simp [StatRow.mk.injEq, listMean, pdMedian, hs, hmode, sampleVarQ, listMin, listMax]
  norm_num
  decide

/-- C4: for every nonempty numeric series, `safe_mode` returns a value of
maximal multiplicity that is the smallest among all values tied for that
maximal multiplicity. -/
theorem safe_mode_smallest_mode (x : List ℚ) (hx : x ≠ []) :
    safe_mode x = some ((safe_mode x).getD 0)
    ∧ (safe_mode x).getD 0 ∈ x
    ∧ (∀ v ∈ x, x.count v ≤ x.count ((safe_mode x).getD 0))
    ∧ (∀ v ∈ x, x.count v = x.count ((safe_mode x).getD 0) → (safe_mode x).getD 0 ≤ v) := by
  obtain ⟨m, h1, h2, -, h4, h5⟩ := safe_mode_spec hx
  rw [h1]
  exact ⟨rfl, h2, h4, h5⟩

/-- C4 witness: in [3, 1, 3, 1, 2] the values 1 and 3 are tied at
multiplicity 2 and the emitted mode is the smaller one, 1. -/
theorem safe_mode_smallest_mode_witness :
    safe_mode [(3 : ℚ), 1, 3, 1, 2] = some ((safe_mode [(3 : ℚ), 1, 3, 1, 2]).getD 0)
    ∧ (safe_mode [(3 : ℚ), 1, 3, 1, 2]).getD 0 = 1 :=
  ⟨(safe_mode_smallest_mode [(3 : ℚ), 1, 3, 1, 2] (by decide)).1, by decide⟩

/-- C5 counterexample: on a group with exactly one observation the code does
not omit the row and the stats schema has no flag column: `compute_stats`
emits the group as an ordinary row, whose only mark is count 1 and the NaN
sample standard deviation (stdSq = none). -/
theorem single_obs_emitted_ordinary :
    compute_stats dfSingle ≠ []
    ∧ (compute_stats dfSingle).map (fun r => (r.count, r.stdSq)) = [(1, none)] := by
  have h : compute_stats dfSingle = [mkStatRow 1 "aqi" [10]] := rfl
  constructor
  · rw [h]
    exact List.cons_ne_nil _ _
  · rw [h]
    simp [mkStatRow, sampleVarQ]

/-- C5 amended: a (city, variable) group with exactly one numeric observation
has an undefined (NaN) sample standard deviation and is deterministically
emitted as an ordinary stats row with stdSq = none — it is neither omitted
nor carries any explicit flag; in general stdSq = none exactly on
single-observation rows. -/
theorem single_obs_row_nan_std (df : List MergedRow) :
    (∀ r ∈ compute_stats df, (r.stdSq = none ↔ r.count = 1))
    ∧ (∀ cid col, col ∈ NUMERIC_COLS → (colVals df cid col).length = 1 →
        ∃ r ∈ compute_stats df, r.city_id = cid ∧ r.var = col ∧ r.count = 1 ∧ r.stdSq = none) := by
  constructor
  · intro r hr
    obtain ⟨cid, col, hcol, hnil, hr2⟩ := mem_compute_stats.mp hr
    subst hr2
    show sampleVarQ (colVals df cid col) = none ↔ (colVals df cid col).length = 1
    have hpos : 0 < (colVals df cid col).length := List.length_pos.mpr hnil
    rw [sampleVarQ]
    split_ifs with h2
    · simp only [true_iff]
      omega
    · simp only [reduceCtorEq, false_iff]
      omega
  · intro cid col hcol hlen
    have hnil : colVals df cid col ≠ [] := by
      intro h
      rw [h] at hlen
      cases hlen
    refine ⟨mkStatRow cid col (colVals df cid col),
      mem_compute_stats.mpr ⟨cid, col, hcol, hnil, rfl⟩, rfl, rfl, hlen, ?_⟩
    show sampleVarQ (colVals df cid col) = none
    rw [sampleVarQ, if_pos (by omega)]

/-- C5 amended witness: the single-observation frame yields the (1, aqi) row
with count 1 and NaN std. -/
theorem single_obs_row_nan_std_witness :
    ∃ r ∈ compute_stats dfSingle, r.city_id = 1 ∧ r.var = "aqi" ∧ r.count = 1 ∧ r.stdSq = none :=
  (single_obs_row_nan_std dfSingle).2 1 "aqi" (by decide) (by decide)

/-- C6 counterexample: in the merged table an unknown city id (7) does not
fall back to its string form "7": `merge_hourly` leaves city_name missing
(`none`), because `Series.map` of a dict yields NaN outside the dict. -/
theorem merge_city_name_not_string_fallback :
    (merge_hourly [w7] []).map (fun r => r.city_name) = [none]
    ∧ (merge_hourly [w7] []).map (fun r => r.city_name) ≠ [some "7"] := by
  constructor
  · decide
  · decide

/-- C6 amended: the string-form fallback for unknown city ids exists only in
the stats table (`CITY_MAP.get(cid, str(cid))`); in the merged table the
city_name column is the plain dict lookup, hence missing (none) for ids
outside `CITY_MAP`. -/
theorem city_name_fallback_split :
    (∀ df : List MergedRow, ∀ r ∈ compute_stats df,
        r.city_name = (List.lookup r.city_id CITY_MAP).getD (toString r.city_id))
    ∧ (∀ (ws : List WRow) (as_ : List ARow), ∀ r ∈ merge_hourly ws as_,
        r.city_name = List.lookup r.city_id CITY_MAP) := by
  constructor
  · intro df r hr
    obtain ⟨cid, col, hcol, hnil, hr2⟩ := mem_compute_stats.mp hr
    subst hr2
    rfl
  · intro ws as_ r hr
    rw [merge_hourly] at hr
    obtain ⟨r0, hr0, rfl⟩ := List.mem_map.mp hr
    rfl

/-- C6 amended witness: for the city-7 weather row, the merged table's
city_name is none (its city id being 7, a key outside `CITY_MAP`), and the
stats table on a city-7 frame uses the string form "7". -/
theorem city_name_fallback_split_witness :
    ((merge_hourly [w7] []).headD mrowD).city_name = none := by
  have h := city_name_fallback_split.2 [w7] []
    ((merge_hourly [w7] []).headD mrowD) (by decide)
  rw [h]
  decide

/-- C7: for every fetch outcome (success or failure) and every previous file
content, one collector run produces exactly the fixed header followed by one
data row per configured city, in configured order, with every data row
carrying the single capture timestamp computed once per run; the previous
file content is irrelevant (truncate and recreate). -/
theorem crawl_and_save_output (fetchW : ℚ × ℚ → Option WeatherJson)
    (fetchA : ℚ × ℚ → Option AirJson) (ts : String) :
    (crawl_and_save fetchW fetchA ts).head? = some HEADER
    ∧ (crawl_and_save fetchW fetchA ts).length = CITIES.length + 1
    ∧ ((crawl_and_save fetchW fetchA ts).drop 1).map (fun row => row.getD 1 "")
        = CITIES.map (fun c => c.1)
    ∧ ((crawl_and_save fetchW fetchA ts).drop 1).map (fun row => row.getD 0 "")
        = List.replicate CITIES.length ts
    ∧ ∀ prevFile, runCollector prevFile fetchW fetchA ts = crawl_and_save fetchW fetchA ts :=
  ⟨rfl, rfl, rfl, rfl, fun _ => rfl⟩

/-- C8: per-city fetch independence — each configured city's data row is in
the output; if the weather fetch for that city fails (network error,
malformed response or missing field) its four weather fields are all the
sentinel while the eight air-quality fields are exactly what the air fetch
produced, and symmetrically for an air-quality failure. Fetch failures never
abort the run, since the row is produced in every case. -/
theorem fetch_failure_independence (fetchW : ℚ × ℚ → Option WeatherJson)
    (fetchA : ℚ × ℚ → Option AirJson) (ts : String) (cname : String) (lat lon : ℚ)
    (hmem : (cname, lat, lon) ∈ CITIES) :
    rowFor fetchW fetchA ts (cname, lat, lon) ∈ crawl_and_save fetchW fetchA ts
    ∧ (wFailed (fetchW (lat, lon)) = true →
        rowFor fetchW fetchA ts (cname, lat, lon)
          = [ts, cname, NA, NA, NA, NA] ++ airCells (get_air_quality (fetchA (lat, lon))))
    ∧ (aFailed (fetchA (lat, lon)) = true →
        rowFor fetchW fetchA ts (cname, lat, lon)
          = [ts, cname] ++ weatherCells (get_weather (fetchW (lat, lon)))
            ++ [NA, NA, NA, NA, NA, NA, NA, NA]) := by
  refine ⟨List.mem_cons_of_mem _ (List.mem_map.mpr ⟨(cname, lat, lon), hmem, rfl⟩), ?_, ?_⟩
  · intro hfail
    rw [rowFor, get_weather_failed hfail]
    rfl
  · intro hfail
    rw [rowFor, get_air_failed hfail]
    rfl

/-- C8 witness: with both fetches failing for every city, Hanoi's row is the
timestamp, the name, and twelve sentinels. -/
theorem fetch_failure_independence_witness :
    rowFor (fun _ => none) (fun _ => none) "t" ("Hanoi", 21.0285, 105.8542)
      = ["t", "Hanoi", NA, NA, NA, NA]
        ++ airCells (get_air_quality ((fun _ => none) ((21.0285 : ℚ), (105.8542 : ℚ)))) :=
  (fetch_failure_independence (fun _ => none) (fun _ => none) "t" "Hanoi" 21.0285 105.8542
    (List.mem_cons_self _ _)).2.1 rfl

/-- C9 counterexample: if the first statement after `conn = connect()`
raises, the reporter run ends with the connection opened but `conn.close()`
never executed — release is not guaranteed on error paths. -/
theorem conn_close_skipped_on_error :
    DbEv.connectEv ∈ mainDbTrace [true] ∧ DbEv.closeEv ∉ mainDbTrace [true] := by
  decide

/-- C9 amended: each reporter run acquires its own connection, and the
trailing `conn.close()` runs exactly when every statement between connect and
close succeeds; when any of them raises, close is skipped (there is no
try/finally or context manager around the connection). -/
theorem conn_close_iff_all_succeed (stepFails : List Bool) :
    DbEv.connectEv ∈ mainDbTrace stepFails
    ∧ (DbEv.closeEv ∈ mainDbTrace stepFails ↔ stepFails.all (fun b => !b) = true) := by
  constructor
  · exact List.mem_cons_self _ _
  · constructor
    · intro hmem
      rcases List.mem_cons.mp hmem with h | h
      · exact absurd h (by decide)
      · exact (closeEv_mem_steps stepFails).mp h
    · intro hall
      exact List.mem_cons_of_mem _ ((closeEv_mem_steps stepFails).mpr hall)

/-- C10: in the `--cities` parsing, every comma-separated token that does not
parse as an integer is dropped (the pure model has no error or warning
channel at all); every returned id comes from a token that parsed, unless
nothing parsed, in which case the list silently defaults to [1, 2]; the
result is never empty; and "abc" behaves exactly like the default "1,2",
while the unparseable token in "1, x, 2" is dropped. -/
theorem parse_cities_silent_drop :
    (∀ s : List Char, ∀ c ∈ parse_cities s,
        (∃ tok ∈ pySplitComma s, pyInt? (pyStrip tok) = some c) ∨ parse_cities s = [1, 2])
    ∧ (∀ s : List Char, parse_cities s ≠ [])
    ∧ parse_cities "abc".toList = [1, 2]
    ∧ parse_cities "abc".toList = parse_cities "1,2".toList
    ∧ parse_cities "1, x, 2".toList = [1, 2] := by
  refine ⟨?_, ?_, by decide, by decide, by decide⟩
  · intro s c hc
    by_cases hnil : ((pySplitComma s).filterMap parseToken).isEmpty
    · right
      rw [parse_cities]
      simp only [hnil]
      rfl
    · left
      rw [parse_cities] at hc
      simp only [hnil] at hc
      rw [if_neg (by simp [hnil])] at hc
      obtain ⟨tok, htok, hparse⟩ := List.mem_filterMap.mp hc
      refine ⟨tok, htok, ?_⟩
      rw [parseToken] at hparse
      by_cases he : (pyStrip tok).isEmpty
      · rw [if_pos he] at hparse
        cases hparse
      · rw [if_neg he] at hparse
        exact hparse
  · intro s
    rw [parse_cities]
    by_cases hnil : ((pySplitComma s).filterMap parseToken).isEmpty
    · simp only [hnil]
      intro h
      cases h
    · simp only [hnil]
      intro h
      rw [if_neg (by simp [hnil])] at h
      rw [← List.isEmpty_iff] at h
      rw [h] at hnil
      exact hnil rfl

/-- C10 witness: a mixed argument with one valid and one invalid token still
yields a nonempty city list. -/
theorem parse_cities_silent_drop_witness :
    parse_cities "7,zzz".toList ≠ [] :=
  parse_cities_silent_drop.2.1 "7,zzz".toList
